import Mathlib

/-!
Verification development for the kfc consumer core (src/consumer.c).

The definitions below are a shallow embedding of the consumption
orchestration and termination engine: offset-spec resolution
(consumer_argparse, case 'o'), the consume callback (consume_cb), the
EOF threshold setup and partition start/stop loops (consumer_main).
Machine integers are modelled as Int/Nat; int64 saturation of strtoll
is made explicit.  librdkafka constants are taken from rdkafka.h.
-/

namespace Kfc

/-- RD_KAFKA_PARTITION_UA (unassigned partition sentinel, -1). -/
def PARTITION_UA : Int := -1

/-- RD_KAFKA_RESP_ERR__PARTITION_EOF. -/
def ERR_PARTITION_EOF : Int := -191

/-- RD_KAFKA_OFFSET_END. -/
def OFFSET_END : Int := -1

/-- RD_KAFKA_OFFSET_BEGINNING. -/
def OFFSET_BEGINNING : Int := -2

/-- RD_KAFKA_OFFSET_STORED. -/
def OFFSET_STORED : Int := -1000

/-- RD_KAFKA_OFFSET_TAIL_BASE. -/
def OFFSET_TAIL_BASE : Int := -2000

/-- RD_KAFKA_OFFSET_TAIL(cnt) = RD_KAFKA_OFFSET_TAIL_BASE - cnt. -/
def OFFSET_TAIL (cnt : Int) : Int := OFFSET_TAIL_BASE - cnt

/-- LLONG_MAX on the 64-bit targets the code builds for. -/
def INT64_MAX : Int := 9223372036854775807

/-- LLONG_MIN on the 64-bit targets the code builds for. -/
def INT64_MIN : Int := -9223372036854775808

/-- C isspace for the default locale (space, \t, \n, \v, \f, \r). -/
def cIsSpace (c : Char) : Bool := c.toNat = 32 || (9 ≤ c.toNat && c.toNat ≤ 13)

/-- Leading sign/digits view of a strtoll(s, NULL, 10) call: skip
isspace characters, consume one optional sign (45 is minus, 43 is
plus), then the maximal run of decimal digits. -/
def strtollSplit (cs : List Char) : Bool × List Char :=
  let cs1 := cs.dropWhile cIsSpace
  match cs1 with
  | [] => (false, [])
  | c :: rest =>
    if c.toNat = 45 then (true, rest.takeWhile Char.isDigit)
    else if c.toNat = 43 then (false, rest.takeWhile Char.isDigit)
    else (false, cs1.takeWhile Char.isDigit)

/-- Value of a run of decimal digit characters. -/
def digitsToNat (cs : List Char) : Nat :=
  cs.foldl (fun a c => a * 10 + (c.toNat - 48)) 0

/-- strtoll saturates out-of-range values at the int64 bounds. -/
def clampInt64 (v : Int) : Int :=
  if v > INT64_MAX then INT64_MAX
  else if v < INT64_MIN then INT64_MIN
  else v

/-- strtoll(s, NULL, 10): no digits means no conversion and result 0;
the end pointer is discarded by the caller. -/
def strtoll10 (s : String) : Int :=
  clampInt64 (if (strtollSplit s.data).1
    then -((digitsToNat (strtollSplit s.data).2 : Nat) : Int)
    else ((digitsToNat (strtollSplit s.data).2 : Nat) : Int))

/-- Two's-complement wrap-around of int64 arithmetic, as performed by
the hardware the program runs on. -/
def wrapInt64 (v : Int) : Int :=
  (v + 9223372036854775808) % 18446744073709551616 - 9223372036854775808

/-- The 'o' option branch of consumer_argparse: keyword lookup first,
otherwise strtoll, with negative values mapped through
RD_KAFKA_OFFSET_TAIL.  Both the negation of conf.offset and the
RD_KAFKA_OFFSET_TAIL subtraction are int64 operations in the source,
so each wraps for parsed magnitudes at or above 2^63 - 1999. -/
def resolveOffset (s : String) : Int :=
  if s = "end" then OFFSET_END
  else if s = "beginning" then OFFSET_BEGINNING
  else if s = "stored" then OFFSET_STORED
  else if strtoll10 s < 0 then wrapInt64 (OFFSET_TAIL (wrapInt64 (-(strtoll10 s))))
  else strtoll10 s

/-- Abstract starting-offset directive of the specification. -/
inductive OffsetDirective where
  | Earliest : OffsetDirective
  | Latest : OffsetDirective
  | Stored : OffsetDirective
  | Absolute : Int → OffsetDirective
  | TailRelative : Int → OffsetDirective
  | Invalid : OffsetDirective
deriving DecidableEq

/-- Reading of a raw int64 conf.offset value as a directive, per the
librdkafka logical-offset encoding the code relies on. -/
def interpOffset (v : Int) : OffsetDirective :=
  if v = OFFSET_END then OffsetDirective.Latest
  else if v = OFFSET_BEGINNING then OffsetDirective.Earliest
  else if v = OFFSET_STORED then OffsetDirective.Stored
  else if v ≤ OFFSET_TAIL_BASE then OffsetDirective.TailRelative (OFFSET_TAIL_BASE - v)
  else if 0 ≤ v then OffsetDirective.Absolute v
  else OffsetDirective.Invalid

/-- Configuration fields of struct conf read by the consumer core.
CONF_F_OFFSET and CONF_F_KEY_DELIM bits of conf.flags are modelled as
the two booleans. -/
structure Conf where
  partition : Int
  delim : Nat
  key_delim : Nat
  flag_offset : Bool
  flag_key_delim : Bool
  msg_cnt : Int
  offset : Int
  exit_eof : Bool
deriving DecidableEq

/-- One rd_kafka_message_t as seen by consume_cb: err is the response
error code (0 for a data record), key and payload are byte lists whose
lengths stand for key_len and len. -/
structure KMessage where
  err : Int
  partition : Nat
  offset : Int
  key : List Nat
  payload : List Nat
deriving DecidableEq

/-- Return values of the four libc output calls of one consume_cb data
pass: the two fprintf returns (which the code discards) and the two
fwrite item counts (which the code compares against 1). -/
structure WriteOutcome where
  offsetRet : Int
  keyRet : Int
  payloadRet : Nat
  delimRet : Nat
deriving DecidableEq

/-- All four output calls succeed. -/
def okWrite : WriteOutcome :=
  { offsetRet := 1, keyRet := 1, payloadRet := 1, delimRet := 1 }

/-- Mutable state threaded through the consume loop: conf.run,
conf.exitcode, the part_eof array (total map, calloc zero-initialised),
part_eof_cnt, stats.rx and the bytes written to the output FILE. -/
structure ConsumerState where
  run : Bool
  exitcode : Int
  part_eof : Nat → Bool
  part_eof_cnt : Nat
  rx : Nat
  out : List Nat

/-- State at entry of the consume loop. -/
def initState : ConsumerState :=
  { run := true, exitcode := 0, part_eof := fun _ => false,
    part_eof_cnt := 0, rx := 0, out := [] }

/-- Decimal digit bytes of a natural number, as printed by fprintf. -/
def natDecBytes (n : Nat) : List Nat := (Nat.toDigits 10 n).map Char.toNat

/-- Bytes of the PRId64 rendering of an int64 offset. -/
def intDecBytes (i : Int) : List Nat :=
  if i < 0 then 45 :: natDecBytes i.natAbs else natDecBytes i.natAbs

/-- Bytes emitted for the key by fprintf "%.*s" with precision key_len:
output stops at the first NUL byte even when key_len extends past it. -/
def keyBytesPrinted (key : List Nat) : List Nat :=
  key.takeWhile (fun b => b ≠ 0)

/-- The consume_cb callback, one message.  thres is the global
part_eof_thres.  FATAL is modelled from the spec: common.h is not part
of src/, and §7 of the spec states that every fatal condition
terminates the run with a non-zero exit code; here it stops the run
and sets exitcode 1, after which the state is frozen.  The two fprintf
return values in wr are ignored exactly as the code ignores them. -/
def consume_cb (c : Conf) (thres : Nat) (wr : WriteOutcome)
    (st : ConsumerState) (m : KMessage) : ConsumerState :=
  if st.run = false then st
  else if m.err ≠ 0 then
    if m.err = ERR_PARTITION_EOF then
      if c.exit_eof then
        if st.part_eof m.partition = false then
          { st with
            part_eof := fun i => if i = m.partition then true else st.part_eof i,
            part_eof_cnt := st.part_eof_cnt + 1,
            run := if thres ≤ st.part_eof_cnt + 1 then false else st.run }
        else st
      else st
    else
      { st with run := false, exitcode := 1 }
  else
    let o1 := st.out ++ (if c.flag_offset then intDecBytes m.offset ++ [c.key_delim] else [])
    let o2 := o1 ++ (if c.flag_key_delim then keyBytesPrinted m.key ++ [c.key_delim] else [])
    if wr.payloadRet ≠ 1 then
      { st with out := o2, run := false, exitcode := 1 }
    else if wr.delimRet ≠ 1 then
      { st with out := o2 ++ m.payload, run := false, exitcode := 1 }
    else
      let st1 := { st with out := o2 ++ m.payload ++ [c.delim], rx := st.rx + 1 }
      if (st.rx + 1 : Int) = c.msg_cnt then { st1 with run := false } else st1

/-- The while (conf.run) polling loop over a delivered batch: librdkafka
invokes consume_cb once per drained message, including messages drained
after the run flag dropped within the same batch. -/
def runTrace (c : Conf) (thres : Nat) (st : ConsumerState)
    (msgs : List (KMessage × WriteOutcome)) : ConsumerState :=
  msgs.foldl (fun s mw => consume_cb c thres mw.2 s mw.1) st

/-- Success-path bytes of one formatted record, as composed by the
claims: offset field, key field, payload, record delimiter. -/
def formatBytes (c : Conf) (m : KMessage) : List Nat :=
  (if c.flag_offset then intDecBytes m.offset ++ [c.key_delim] else [])
    ++ (if c.flag_key_delim then keyBytesPrinted m.key ++ [c.key_delim] else [])
    ++ m.payload ++ [c.delim]

/-- Output composition as the claim words it, with the raw key bytes
unaltered; stated for comparison with the code's behaviour. -/
def claimedFormatBytes (c : Conf) (m : KMessage) : List Nat :=
  (if c.flag_offset then intDecBytes m.offset ++ [c.key_delim] else [])
    ++ (if c.flag_key_delim then m.key ++ [c.key_delim] else [])
    ++ m.payload ++ [c.delim]

/-- Topic-level slice of rd_kafka_metadata: the topic error code and
the partition ids, in metadata order (partition_cnt is the length). -/
structure TopicMeta where
  err : Int
  partitions : List Int
deriving DecidableEq

/-- Cluster metadata reply: topic_cnt is the length of topics. -/
structure Metadata where
  topics : List TopicMeta
deriving DecidableEq

/-- Fatal metadata-resolution outcomes of consumer_main's pre-flight. -/
inductive MetaError where
  | TopicNotFound : MetaError
  | TopicError : Int → MetaError
  | NoPartitions : MetaError
  | PartitionNotFound : Int → Int → MetaError
deriving DecidableEq

/-- The consume-start for loop of consumer_main: skip partitions other
than a requested one, start each wanted partition at the shared conf
offset, and break after starting an explicitly requested partition.
The boolean is true when the loop ran to completion without break,
i.e. when i reached partition_cnt. -/
def startLoop (requested off : Int) : List Int → List (Int × Int) × Bool
  | [] => ([], true)
  | p :: rest =>
    if requested ≠ PARTITION_UA ∧ requested ≠ p then startLoop requested off rest
    else if requested ≠ PARTITION_UA then ([(p, off)], false)
    else ((p, off) :: (startLoop requested off rest).1, (startLoop requested off rest).2)

/-- The consume-stop for loop of consumer_main: same skip condition as
the start loop, never breaks. -/
def stopLoop (requested : Int) : List Int → List Int
  | [] => []
  | p :: rest =>
    if requested ≠ PARTITION_UA ∧ requested ≠ p then stopLoop requested rest
    else p :: stopLoop requested rest

/-- Pre-flight of consumer_main: the three metadata checks, then the
start loop, then the partition-existence re-check (i == partition_cnt
with a requested partition means the id never occurred). On success it
yields the topic slice and the started (partition, offset) pairs. -/
def preflight (requested off : Int) (md : Metadata) :
    Except MetaError (TopicMeta × List (Int × Int)) :=
  match md.topics with
  | [] => Except.error MetaError.TopicNotFound
  | t :: _ =>
    if t.err ≠ 0 then Except.error (MetaError.TopicError t.err)
    else if t.partitions.length = 0 then Except.error MetaError.NoPartitions
    else
      let s := startLoop requested off t.partitions
      if requested ≠ PARTITION_UA ∧ s.2 then
        Except.error (MetaError.PartitionNotFound 0 ((t.partitions.length : Int) - 1))
      else Except.ok (t, s.1)

/-- part_eof_thres as set by consumer_main when exit-at-EOF is on:
1 for an explicitly selected partition, else the partition count. -/
def eofThreshold (c : Conf) (partition_cnt : Nat) : Nat :=
  if c.partition ≠ PARTITION_UA then 1 else partition_cnt

/-- part_eof_thres including its zero initialisation when exit-at-EOF
is off (the EOF branch of consume_cb is then never taken). -/
def mainThres (c : Conf) (t : TopicMeta) : Nat :=
  if c.exit_eof then eofThreshold c t.partitions.length else 0

/-- A queue item on which consume_cb hits a FATAL while running: a
non-EOF stream error, or a checked write failure on a data record. -/
def fatalTrigger (m : KMessage) (wr : WriteOutcome) : Prop :=
  (m.err ≠ 0 ∧ m.err ≠ ERR_PARTITION_EOF) ∨
    (m.err = 0 ∧ (wr.payloadRet ≠ 1 ∨ wr.delimRet ≠ 1))

/-- Observable outcome of one consumer_main run: the streams opened
with their starting offsets, the streams closed, and the exit code. -/
structure MainOutcome where
  opened : List (Int × Int)
  closed : List Int
  exitcode : Int

/-- consumer_main over a delivered message sequence.  Fatal conditions
rely on the spec-modelled FATAL of consume_cb: §7 requires every fatal
path to close the opened streams and exit non-zero, so the pre-flight
error arm (where nothing was opened) exits 1 with no streams to close,
and trace fatals fall through to the stop loop like normal
termination. -/
def consumer_main_model (c : Conf) (md : Metadata)
    (msgs : List (KMessage × WriteOutcome)) : MainOutcome :=
  match preflight c.partition c.offset md with
  | Except.error _ => { opened := [], closed := [], exitcode := 1 }
  | Except.ok (t, opened) =>
    let fin := runTrace c (mainThres c t) initState msgs
    { opened := opened,
      closed := stopLoop c.partition t.partitions,
      exitcode := fin.exitcode }

/-- Fixture: consume all partitions, exit at EOF, both output fields on. -/
def confA : Conf :=
  { partition := PARTITION_UA, delim := 10, key_delim := 9, flag_offset := true,
    flag_key_delim := true, msg_cnt := 0, offset := OFFSET_BEGINNING, exit_eof := true }

/-- Fixture: explicit partition 3 with exit at EOF. -/
def confB : Conf :=
  { partition := 3, delim := 10, key_delim := 9, flag_offset := false,
    flag_key_delim := false, msg_cnt := 0, offset := OFFSET_END, exit_eof := true }

/-- Fixture: message-count limit 2, plain payload output. -/
def confC : Conf :=
  { partition := PARTITION_UA, delim := 10, key_delim := 9, flag_offset := false,
    flag_key_delim := false, msg_cnt := 2, offset := OFFSET_BEGINNING, exit_eof := false }

/-- Fixture: key output enabled with delimiter 58. -/
def confKey : Conf :=
  { partition := PARTITION_UA, delim := 10, key_delim := 58, flag_offset := false,
    flag_key_delim := true, msg_cnt := 0, offset := OFFSET_BEGINNING, exit_eof := false }

/-- Fixture: offset printing enabled. -/
def confOff : Conf :=
  { partition := PARTITION_UA, delim := 10, key_delim := 9, flag_offset := true,
    flag_key_delim := false, msg_cnt := 0, offset := OFFSET_BEGINNING, exit_eof := false }

/-- Fixture: a plain data record. -/
def dataMsg0 : KMessage :=
  { err := 0, partition := 0, offset := 7, key := [107], payload := [104, 105] }

/-- Fixture: further data records for multi-record traces. -/
def dataMsg1 : KMessage :=
  { err := 0, partition := 0, offset := 8, key := [], payload := [106] }

/-- Fixture: a third data record. -/
def dataMsg2 : KMessage :=
  { err := 0, partition := 0, offset := 9, key := [], payload := [] }

/-- Fixture: a partition-EOF control record for partition p. -/
def eofMsg (p : Nat) : KMessage :=
  { err := ERR_PARTITION_EOF, partition := p, offset := 3, key := [], payload := [] }

/-- Fixture: a non-EOF stream error record. -/
def errMsg : KMessage :=
  { err := -185, partition := 0, offset := 4, key := [], payload := [] }

/-- Fixture: a data record whose key holds an embedded NUL byte. -/
def nulKeyMsg : KMessage :=
  { err := 0, partition := 0, offset := 1, key := [65, 0, 66], payload := [80] }

/-- Fixture: the offset-field fprintf fails, everything else succeeds. -/
def failOffsetWrite : WriteOutcome :=
  { offsetRet := -1, keyRet := 1, payloadRet := 1, delimRet := 1 }

/-- Fixture: a stopped consumer state. -/
def stoppedState : ConsumerState :=
  { run := false, exitcode := 0, part_eof := fun _ => false,
    part_eof_cnt := 0, rx := 0, out := [] }

/-- Fixture: healthy single-topic metadata with partitions 0, 1, 2. -/
def mdTopic : TopicMeta := { err := 0, partitions := [0, 1, 2] }

/-- Fixture: metadata reply carrying mdTopic. -/
def mdThree : Metadata := { topics := [mdTopic] }

/-- Fixture: single-partition topic metadata. -/
def mdOne : Metadata := { topics := [{ err := 0, partitions := [0] }] }

/-- Fixture: three successfully written data records. -/
def msgs3 : List (KMessage × WriteOutcome) :=
  [(dataMsg0, okWrite), (dataMsg1, okWrite), (dataMsg2, okWrite)]

/-- Fixture: a trace holding one fatal stream error. -/
def msgsF : List (KMessage × WriteOutcome) := [(errMsg, okWrite)]

theorem consume_cb_not_run (c : Conf) (thres : Nat) (wr : WriteOutcome)
    (st : ConsumerState) (m : KMessage) (h : st.run = false) :
    consume_cb c thres wr st m = st := by
  unfold consume_cb
  simp [h]

theorem runTrace_nil (c : Conf) (thres : Nat) (st : ConsumerState) :
    runTrace c thres st [] = st := rfl

theorem runTrace_cons (c : Conf) (thres : Nat) (st : ConsumerState)
    (mw : KMessage × WriteOutcome) (msgs : List (KMessage × WriteOutcome)) :
    runTrace c thres st (mw :: msgs) =
      runTrace c thres (consume_cb c thres mw.2 st mw.1) msgs := rfl

theorem runTrace_append (c : Conf) (thres : Nat) (st : ConsumerState)
    (l1 l2 : List (KMessage × WriteOutcome)) :
    runTrace c thres st (l1 ++ l2) = runTrace c thres (runTrace c thres st l1) l2 :=
  List.foldl_append _ _ l1 l2

theorem runTrace_stopped (c : Conf) (thres : Nat) (st : ConsumerState)
    (msgs : List (KMessage × WriteOutcome)) (h : st.run = false) :
    runTrace c thres st msgs = st := by
  induction msgs with
  | nil => rfl
  | cons mw rest ih =>
    rw [runTrace_cons, consume_cb_not_run c thres mw.2 st mw.1 h]
    exact ih

/-- C10: once RunState is stopped the consume callback returns
immediately, so every subsequently delivered record — including the
rest of an already-drained batch — leaves the whole state (output,
Stats.rx, EOF state) untouched. -/
theorem stopped_run_drops_records (c : Conf) (thres : Nat) (st : ConsumerState)
    (msgs : List (KMessage × WriteOutcome)) (h : st.run = false) :
    (∀ wr m, consume_cb c thres wr st m = st) ∧ runTrace c thres st msgs = st :=
  ⟨fun wr m => consume_cb_not_run c thres wr st m h, runTrace_stopped c thres st msgs h⟩

/-- C10 witness: a stopped state absorbs a concrete two-record batch. -/
theorem stopped_run_drops_records_witness :
    stoppedState.run = false ∧
      runTrace confA 1 stoppedState [(eofMsg 0, okWrite), (dataMsg0, okWrite)] = stoppedState :=
  ⟨rfl, (stopped_run_drops_records confA 1 stoppedState
    [(eofMsg 0, okWrite), (dataMsg0, okWrite)] rfl).2⟩

/-- C5 counterexample: resolving "abc" does not fail; strtoll makes no
conversion, yields 0, and the run starts from the Absolute 0 offset. -/
theorem resolve_abc_no_failure :
    resolveOffset "abc" = 0 ∧
      interpOffset (resolveOffset "abc") = OffsetDirective.Absolute 0 := by
  decide

theorem strtoll10_no_digits (s : String) (h : (strtollSplit s.data).2 = []) :
    strtoll10 s = 0 := by
  unfold strtoll10
  rw [h]
  simp [digitsToNat, clampInt64, INT64_MAX, INT64_MIN]

/-- C5 (amended): an input that is neither a keyword nor starts with
any digits is converted by strtoll to 0 and resolves, without any
failure, to the Absolute 0 directive. -/
theorem resolve_unparseable_absolute_zero (s : String)
    (h1 : s ≠ "end") (h2 : s ≠ "beginning") (h3 : s ≠ "stored")
    (h4 : (strtollSplit s.data).2 = []) :
    resolveOffset s = 0 ∧ interpOffset (resolveOffset s) = OffsetDirective.Absolute 0 := by
  have hz : strtoll10 s = 0 := strtoll10_no_digits s h4
  have hr : resolveOffset s = 0 := by
    unfold resolveOffset
    rw [if_neg h1, if_neg h2, if_neg h3, hz]
    simp
  refine ⟨hr, ?_⟩
  rw [hr]
  decide

/-- C5 witness: the amended statement at the concrete input "x7". -/
theorem resolve_unparseable_absolute_zero_witness :
    (strtollSplit "x7".data).2 = [] ∧ resolveOffset "x7" = 0 ∧
      interpOffset (resolveOffset "x7") = OffsetDirective.Absolute 0 :=
  ⟨by decide, resolve_unparseable_absolute_zero "x7"
    (by decide) (by decide) (by decide) (by decide)⟩

theorem interpOffset_nonneg (v : Int) (hv : 0 ≤ v) :
    interpOffset v = OffsetDirective.Absolute v := by
  have h1 : ¬ v = OFFSET_END := by unfold OFFSET_END; omega
  have h2 : ¬ v = OFFSET_BEGINNING := by unfold OFFSET_BEGINNING; omega
  have h3 : ¬ v = OFFSET_STORED := by unfold OFFSET_STORED; omega
  have h4 : ¬ v ≤ OFFSET_TAIL_BASE := by unfold OFFSET_TAIL_BASE; omega
  unfold interpOffset
  rw [if_neg h1, if_neg h2, if_neg h3, if_neg h4, if_pos hv]

theorem interpOffset_tail (w : Int) (hw : 0 < w) :
    interpOffset (OFFSET_TAIL w) = OffsetDirective.TailRelative w := by
  have h1 : ¬ OFFSET_TAIL w = OFFSET_END := by
    unfold OFFSET_TAIL OFFSET_TAIL_BASE OFFSET_END; omega
  have h2 : ¬ OFFSET_TAIL w = OFFSET_BEGINNING := by
    unfold OFFSET_TAIL OFFSET_TAIL_BASE OFFSET_BEGINNING; omega
  have h3 : ¬ OFFSET_TAIL w = OFFSET_STORED := by
    unfold OFFSET_TAIL OFFSET_TAIL_BASE OFFSET_STORED; omega
  have h4 : OFFSET_TAIL w ≤ OFFSET_TAIL_BASE := by
    unfold OFFSET_TAIL OFFSET_TAIL_BASE; omega
  unfold interpOffset
  rw [if_neg h1, if_neg h2, if_neg h3, if_pos h4]
  have : OFFSET_TAIL_BASE - OFFSET_TAIL w = w := by
    unfold OFFSET_TAIL OFFSET_TAIL_BASE; omega
  rw [this]

theorem startLoop_offsets (requested off : Int) (ps : List Int) :
    ∀ pr ∈ (startLoop requested off ps).1, pr.2 = off := by
  induction ps with
  | nil => intro pr hpr; simp [startLoop] at hpr
  | cons p rest ih =>
    intro pr hpr
    unfold startLoop at hpr
    by_cases hc : requested ≠ PARTITION_UA ∧ requested ≠ p
    · rw [if_pos hc] at hpr
      exact ih pr hpr
    · rw [if_neg hc] at hpr
      by_cases hu : requested ≠ PARTITION_UA
      · rw [if_pos hu] at hpr
        rw [List.mem_singleton.mp hpr]
      · rw [if_neg hu] at hpr
        rcases List.mem_cons.mp hpr with h | h
        · rw [h]
        · exact ih pr h

theorem strtoll10_bounds (s : String) :
    INT64_MIN ≤ strtoll10 s ∧ strtoll10 s ≤ INT64_MAX := by
  unfold strtoll10 clampInt64 INT64_MIN INT64_MAX
  split_ifs <;> omega

theorem tail_no_wrap (v : Int) (hneg : v < 0) (hge : INT64_MIN + 2000 ≤ v) :
    wrapInt64 (OFFSET_TAIL (wrapInt64 (-v))) = OFFSET_TAIL (-v) := by
  unfold wrapInt64 OFFSET_TAIL OFFSET_TAIL_BASE INT64_MIN at *
  omega

theorem tail_wrap_pos (v : Int) (hmin : INT64_MIN ≤ v) (hlt : v < INT64_MIN + 2000) :
    0 < wrapInt64 (OFFSET_TAIL (wrapInt64 (-v))) := by
  unfold wrapInt64 OFFSET_TAIL OFFSET_TAIL_BASE INT64_MIN at *
  omega

/-- C9 counterexample: the negative parsed value -(2^63 - 1) does not
resolve to TailRelative(2^63 - 1): the int64 RD_KAFKA_OFFSET_TAIL
subtraction wraps and the program starts from the huge positive
absolute offset 2^63 - 1999. -/
theorem tail_wrap_counterexample :
    strtoll10 "-9223372036854775807" < 0 ∧
      resolveOffset "-9223372036854775807" = 9223372036854773809 ∧
      interpOffset (resolveOffset "-9223372036854775807") =
        OffsetDirective.Absolute 9223372036854773809 ∧
      interpOffset (resolveOffset "-9223372036854775807") ≠
        OffsetDirective.TailRelative (-(strtoll10 "-9223372036854775807")) := by
  decide

/-- C9 (amended): the keyword tokens map to Latest, Earliest and
Stored; any other input is parsed by strtoll, a non-negative value
resolving to an Absolute offset; a negative value of magnitude at most
2^63 - 2000 resolves to TailRelative of its magnitude, while a larger
magnitude overflows the int64 RD_KAFKA_OFFSET_TAIL computation and
wraps to a positive Absolute offset; and the start loop hands the one
shared conf offset to every selected partition. -/
theorem offset_directive_mapping :
    interpOffset (resolveOffset "end") = OffsetDirective.Latest
    ∧ interpOffset (resolveOffset "beginning") = OffsetDirective.Earliest
    ∧ interpOffset (resolveOffset "stored") = OffsetDirective.Stored
    ∧ (∀ s : String, s ≠ "end" → s ≠ "beginning" → s ≠ "stored" →
        (0 ≤ strtoll10 s →
          interpOffset (resolveOffset s) = OffsetDirective.Absolute (strtoll10 s))
        ∧ (strtoll10 s < 0 → INT64_MIN + 2000 ≤ strtoll10 s →
          interpOffset (resolveOffset s) = OffsetDirective.TailRelative (-(strtoll10 s)))
        ∧ (strtoll10 s < INT64_MIN + 2000 →
          0 < resolveOffset s ∧
          interpOffset (resolveOffset s) = OffsetDirective.Absolute (resolveOffset s)))
    ∧ (∀ requested off : Int, ∀ ps : List Int,
        ∀ pr ∈ (startLoop requested off ps).1, pr.2 = off) := by
  refine ⟨by decide, by decide, by decide, ?_, fun requested off ps => startLoop_offsets requested off ps⟩
  intro s h1 h2 h3
  have hr : resolveOffset s =
      (if strtoll10 s < 0 then wrapInt64 (OFFSET_TAIL (wrapInt64 (-(strtoll10 s))))
       else strtoll10 s) := by
    unfold resolveOffset
    rw [if_neg h1, if_neg h2, if_neg h3]
  refine ⟨?_, ?_, ?_⟩
  · intro hv
    rw [hr, if_neg (by omega)]
    exact interpOffset_nonneg _ hv
  · intro hv hge
    rw [hr, if_pos hv, tail_no_wrap (strtoll10 s) hv hge]
    exact interpOffset_tail _ (by omega)
  · intro hlt
    have hmin : INT64_MIN ≤ strtoll10 s := (strtoll10_bounds s).1
    have hneg : strtoll10 s < 0 := by
      unfold INT64_MIN at hlt
      omega
    have hpos := tail_wrap_pos (strtoll10 s) hmin hlt
    rw [hr, if_pos hneg]
    exact ⟨hpos, interpOffset_nonneg _ (le_of_lt hpos)⟩

/-- C9 witness: the amended mapping evaluated at "-5", whose magnitude
is far below the wrap bound. -/
theorem offset_directive_mapping_witness :
    strtoll10 "-5" < 0 ∧ INT64_MIN + 2000 ≤ strtoll10 "-5" ∧
      interpOffset (resolveOffset "-5") = OffsetDirective.TailRelative (-(strtoll10 "-5")) :=
  ⟨by decide, by decide, (offset_directive_mapping.2.2.2.1 "-5"
    (by decide) (by decide) (by decide)).2.1 (by decide) (by decide)⟩

theorem consume_cb_data_success (c : Conf) (thres : Nat) (wr : WriteOutcome)
    (st : ConsumerState) (m : KMessage)
    (hrun : st.run = true) (herr : m.err = 0)
    (hp : wr.payloadRet = 1) (hd : wr.delimRet = 1) :
    consume_cb c thres wr st m =
      { st with out := st.out ++ formatBytes c m,
                rx := st.rx + 1,
                run := if (st.rx + 1 : Int) = c.msg_cnt then false else st.run } := by
  unfold consume_cb formatBytes
  simp only [hrun, herr, hp, hd]
  split_ifs <;> simp_all [List.append_assoc]

/-- C4 (amended): for every Data record and every option combination,
the emitted bytes are, strictly in this order: the decimal offset plus
key delimiter when offset printing is on, then — when a key delimiter
is configured — the key bytes truncated at the first NUL byte (at most
key_len bytes) plus the key delimiter, then the raw payload bytes,
then the record delimiter byte. -/
theorem format_field_order (c : Conf) (thres : Nat) (wr : WriteOutcome)
    (st : ConsumerState) (m : KMessage)
    (hrun : st.run = true) (herr : m.err = 0)
    (hp : wr.payloadRet = 1) (hd : wr.delimRet = 1) :
    (consume_cb c thres wr st m).out = st.out ++ formatBytes c m := by
  rw [consume_cb_data_success c thres wr st m hrun herr hp hd]

/-- C4 witness: the amended field order on a concrete record whose key
holds a NUL byte. -/
theorem format_field_order_witness :
    initState.run = true ∧ nulKeyMsg.err = 0 ∧
      (consume_cb confKey 0 okWrite initState nulKeyMsg).out =
        initState.out ++ formatBytes confKey nulKeyMsg :=
  ⟨rfl, rfl, format_field_order confKey 0 okWrite initState nulKeyMsg rfl rfl rfl rfl⟩

/-- C4 counterexample: with a key delimiter configured and the key
bytes 65, 0, 66, the code's fprintf "%.*s" stops at the NUL, so the
output differs from the claimed raw-key composition. -/
theorem format_raw_key_counterexample :
    (consume_cb confKey 0 okWrite initState nulKeyMsg).out ≠
      claimedFormatBytes confKey nulKeyMsg := by
  decide

/-- C6 counterexample: the offset-field fprintf reports a write error
(negative return) on a concrete data record, yet the run keeps going,
no fatal exit code is set, and the record is still counted: the code
never checks the fprintf returns. -/
theorem offset_write_failure_not_fatal :
    failOffsetWrite.offsetRet < 0 ∧
      (consume_cb confOff 0 failOffsetWrite initState dataMsg0).run = true ∧
      (consume_cb confOff 0 failOffsetWrite initState dataMsg0).exitcode = 0 ∧
      (consume_cb confOff 0 failOffsetWrite initState dataMsg0).rx = 1 := by
  decide

/-- C6 (amended): a write failure at the payload or record-delimiter
fwrite is fatal to the whole run — the record is not retried or
skipped and does not count toward Stats.rx — while the offset-field
and key-field fprintf results are never checked, so failures there do
not abort the run. -/
theorem checked_write_failure_fatal (c : Conf) (thres : Nat) (wr : WriteOutcome)
    (st : ConsumerState) (m : KMessage)
    (hrun : st.run = true) (herr : m.err = 0) :
    ((wr.payloadRet ≠ 1 ∨ wr.delimRet ≠ 1) →
      (consume_cb c thres wr st m).run = false ∧
      (consume_cb c thres wr st m).exitcode = 1 ∧
      (consume_cb c thres wr st m).rx = st.rx)
    ∧ (wr.payloadRet = 1 → wr.delimRet = 1 →
      (consume_cb c thres wr st m).exitcode = st.exitcode ∧
      (consume_cb c thres wr st m).rx = st.rx + 1) := by
  constructor
  · intro hfail
    unfold consume_cb
    simp only [hrun, herr]
    rcases eq_or_ne wr.payloadRet 1 with hp | hp
    · have hd : wr.delimRet ≠ 1 := by
        rcases hfail with h | h
        · exact absurd hp h
        · exact h
      simp [hp, hd]
    · simp [hp]
  · intro hp hd
    rw [consume_cb_data_success c thres wr st m hrun herr hp hd]
    constructor
    · split_ifs <;> rfl
    · split_ifs <;> rfl

/-- C6 witness: a concrete payload-write failure aborts the run. -/
theorem checked_write_failure_fatal_witness :
    initState.run = true ∧ dataMsg0.err = 0 ∧
      (consume_cb confOff 0 { offsetRet := 1, keyRet := 1, payloadRet := 0, delimRet := 1 }
        initState dataMsg0).run = false ∧
      (consume_cb confOff 0 { offsetRet := 1, keyRet := 1, payloadRet := 0, delimRet := 1 }
        initState dataMsg0).exitcode = 1 :=
  ⟨rfl, rfl,
    ((checked_write_failure_fatal confOff 0
      { offsetRet := 1, keyRet := 1, payloadRet := 0, delimRet := 1 }
      initState dataMsg0 rfl rfl).1 (Or.inl (by decide))).1,
    ((checked_write_failure_fatal confOff 0
      { offsetRet := 1, keyRet := 1, payloadRet := 0, delimRet := 1 }
      initState dataMsg0 rfl rfl).1 (Or.inl (by decide))).2.1⟩

theorem startLoop_snd_iff (requested off : Int) (ps : List Int)
    (hreq : requested ≠ PARTITION_UA) :
    (startLoop requested off ps).2 = true ↔ requested ∉ ps := by
  induction ps with
  | nil => simp [startLoop]
  | cons p rest ih =>
    unfold startLoop
    by_cases hp : requested = p
    · have hc : ¬ (requested ≠ PARTITION_UA ∧ requested ≠ p) := by
        intro h; exact h.2 hp
      rw [if_neg hc, if_pos hreq]
      simp [hp]
    · rw [if_pos ⟨hreq, hp⟩]
      rw [ih]
      simp [hp]

/-- C8: the pre-flight fails with TopicNotFound on an empty topic list,
TopicError on a topic-level error code, NoPartitions on an empty
partition list, PartitionNotFound reporting the range 0 to
partition_cnt - 1 when an explicitly requested partition id never
occurs in the metadata (the start loop then runs to completion), and
otherwise yields the partition set with the started streams. -/
theorem metadata_resolution_cases (requested off : Int) (md : Metadata) :
    (md.topics = [] → preflight requested off md = Except.error MetaError.TopicNotFound)
    ∧ (∀ t rest, md.topics = t :: rest →
        (t.err ≠ 0 → preflight requested off md = Except.error (MetaError.TopicError t.err))
        ∧ (t.err = 0 → t.partitions = [] →
            preflight requested off md = Except.error MetaError.NoPartitions)
        ∧ (t.err = 0 → t.partitions ≠ [] → requested ≠ PARTITION_UA →
            requested ∉ t.partitions →
            preflight requested off md =
              Except.error (MetaError.PartitionNotFound 0 ((t.partitions.length : Int) - 1)))
        ∧ (t.err = 0 → t.partitions ≠ [] →
            (requested = PARTITION_UA ∨ requested ∈ t.partitions) →
            preflight requested off md =
              Except.ok (t, (startLoop requested off t.partitions).1))) := by
  constructor
  · intro h
    unfold preflight
    rw [h]
  · intro t rest hmd
    have hlen : t.partitions ≠ [] → ¬ t.partitions.length = 0 := by
      intro hne h0
      exact hne (List.eq_nil_of_length_eq_zero h0)
    refine ⟨?_, ?_, ?_, ?_⟩
    · intro he
      unfold preflight
      rw [hmd]
      dsimp only
      rw [if_pos he]
    · intro he h0
      unfold preflight
      rw [hmd]
      dsimp only
      rw [if_neg (by simp [he]), if_pos (by simp [h0])]
    · intro he hne hreq habs
      unfold preflight
      rw [hmd]
      dsimp only
      rw [if_neg (by simp [he]), if_neg (hlen hne),
        if_pos ⟨hreq, (startLoop_snd_iff requested off t.partitions hreq).mpr habs⟩]
    · intro he hne hsel
      unfold preflight
      rw [hmd]
      dsimp only
      rw [if_neg (by simp [he]), if_neg (hlen hne), if_neg]
      intro hcontra
      rcases hsel with h | h
      · exact hcontra.1 h
      · exact (startLoop_snd_iff requested off t.partitions hcontra.1).mp hcontra.2 h

theorem consume_cb_eof_fresh (c : Conf) (thres : Nat) (wr : WriteOutcome)
    (st : ConsumerState) (m : KMessage)
    (hrun : st.run = true) (hm : m.err = ERR_PARTITION_EOF) (hee : c.exit_eof = true)
    (hflag : st.part_eof m.partition = false) :
    consume_cb c thres wr st m =
      { st with part_eof := fun i => if i = m.partition then true else st.part_eof i,
                part_eof_cnt := st.part_eof_cnt + 1,
                run := if thres ≤ st.part_eof_cnt + 1 then false else st.run } := by
  unfold consume_cb
  rw [if_neg (by rw [hrun]; simp), if_pos (by rw [hm]; decide),
    if_pos hm, if_pos hee, if_pos hflag]

theorem consume_cb_eof_stale (c : Conf) (thres : Nat) (wr : WriteOutcome)
    (st : ConsumerState) (m : KMessage)
    (hrun : st.run = true) (hm : m.err = ERR_PARTITION_EOF) (hee : c.exit_eof = true)
    (hflag : st.part_eof m.partition = true) :
    consume_cb c thres wr st m = st := by
  unfold consume_cb
  rw [if_neg (by rw [hrun]; simp), if_pos (by rw [hm]; decide),
    if_pos hm, if_pos hee, if_neg (by rw [hflag]; simp)]

theorem consume_cb_eof_run_iff (c : Conf) (thres : Nat) (wr : WriteOutcome)
    (st : ConsumerState) (m : KMessage)
    (hee : c.exit_eof = true) (hm : m.err = ERR_PARTITION_EOF)
    (hinv : st.run = true ↔ st.part_eof_cnt < thres) :
    ((consume_cb c thres wr st m).run = true ↔
      (consume_cb c thres wr st m).part_eof_cnt < thres) := by
  cases hrun : st.run with
  | false => rw [consume_cb_not_run c thres wr st m hrun]; exact hinv
  | true =>
    by_cases hflag : st.part_eof m.partition = false
    · rw [consume_cb_eof_fresh c thres wr st m hrun hm hee hflag]
      dsimp only
      split_ifs with h
      · simp only [Bool.false_eq_true, false_iff]
        omega
      · rw [hrun]
        simp only [true_iff]
        omega
    · have hflag1 : st.part_eof m.partition = true := by
        cases h1 : st.part_eof m.partition
        · exact absurd h1 hflag
        · rfl
      rw [consume_cb_eof_stale c thres wr st m hrun hm hee hflag1]
      exact hinv

theorem runTrace_eof_run_iff (c : Conf) (thres : Nat) :
    ∀ (msgs : List (KMessage × WriteOutcome)) (st : ConsumerState),
      c.exit_eof = true →
      (∀ mw ∈ msgs, mw.1.err = ERR_PARTITION_EOF) →
      (st.run = true ↔ st.part_eof_cnt < thres) →
      ((runTrace c thres st msgs).run = true ↔
        (runTrace c thres st msgs).part_eof_cnt < thres) := by
  intro msgs
  induction msgs with
  | nil => intro st _ _ hinv; exact hinv
  | cons mw rest ih =>
    intro st hee hall hinv
    rw [runTrace_cons]
    exact ih _ hee (fun x hx => hall x (List.mem_cons_of_mem mw hx))
      (consume_cb_eof_run_iff c thres mw.2 st mw.1 hee
        (hall mw (List.mem_cons_self mw rest)) hinv)

/-- C1: with exit-on-EOF enabled, a positive partition count and
PartitionEnd signals arriving, after every prefix of the delivered
sequence the run flag is stopped exactly when the count of partitions
at EOF has reached the threshold, and the threshold equals 1 when an
explicit partition was selected and the topic partition count
otherwise. -/
theorem eof_threshold_flips_run (c : Conf) (n : Nat)
    (msgs : List (KMessage × WriteOutcome))
    (hee : c.exit_eof = true) (hn : 1 ≤ n)
    (hall : ∀ mw ∈ msgs, mw.1.err = ERR_PARTITION_EOF) :
    (∀ k : Nat,
      ((runTrace c (eofThreshold c n) initState (msgs.take k)).run = false ↔
        eofThreshold c n ≤ (runTrace c (eofThreshold c n) initState (msgs.take k)).part_eof_cnt))
    ∧ (c.partition ≠ PARTITION_UA → eofThreshold c n = 1)
    ∧ (c.partition = PARTITION_UA → eofThreshold c n = n) := by
  have hthres : 1 ≤ eofThreshold c n := by
    unfold eofThreshold
    split_ifs
    · omega
    · exact hn
  refine ⟨?_, ?_, ?_⟩
  · intro k
    have hiff := runTrace_eof_run_iff c (eofThreshold c n) (msgs.take k) initState hee
      (fun mw hmw => hall mw (List.take_subset k msgs hmw))
      (by constructor
          · intro _
            simpa [initState] using hthres
          · intro _
            rfl)
    constructor
    · intro hf
      by_contra hlt
      push_neg at hlt
      have := hiff.mpr hlt
      rw [hf] at this
      exact Bool.false_ne_true this
    · intro hge
      cases hr : (runTrace c (eofThreshold c n) initState (msgs.take k)).run
      · rfl
      · have := hiff.mp hr
        omega
  · intro h
    unfold eofThreshold
    rw [if_pos h]
  · intro h
    unfold eofThreshold
    rw [if_neg (by simp [h])]

/-- C1 witness: one EOF signal on the explicitly selected partition 3
stops a threshold-1 run. -/
theorem eof_threshold_flips_run_witness :
    confB.exit_eof = true ∧ eofThreshold confB 3 = 1 ∧
      ((runTrace confB (eofThreshold confB 3) initState ([(eofMsg 3, okWrite)].take 1)).run = false ↔
        eofThreshold confB 3 ≤
          (runTrace confB (eofThreshold confB 3) initState ([(eofMsg 3, okWrite)].take 1)).part_eof_cnt) :=
  ⟨rfl,
    (eof_threshold_flips_run confB 3 [(eofMsg 3, okWrite)] rfl (by decide) (by decide)).2.1
      (by decide),
    (eof_threshold_flips_run confB 3 [(eofMsg 3, okWrite)] rfl (by decide) (by decide)).1 1⟩

theorem consume_cb_part_eof_mono (c : Conf) (thres : Nat) (wr : WriteOutcome)
    (st : ConsumerState) (m : KMessage) (p : Nat) (h : st.part_eof p = true) :
    (consume_cb c thres wr st m).part_eof p = true := by
  simp only [consume_cb]
  split_ifs <;> try exact h
  all_goals (by_cases hp : p = m.partition <;> simp [hp, h])

theorem runTrace_part_eof_mono (c : Conf) (thres : Nat) :
    ∀ (msgs : List (KMessage × WriteOutcome)) (st : ConsumerState) (p : Nat),
      st.part_eof p = true → (runTrace c thres st msgs).part_eof p = true := by
  intro msgs
  induction msgs with
  | nil => intro st p h; exact h
  | cons mw rest ih =>
    intro st p h
    rw [runTrace_cons]
    exact ih _ p (consume_cb_part_eof_mono c thres mw.2 st mw.1 p h)

/-- part_eof_cnt always equals the number of partitions of the scope S
whose EOF flag is set, provided signalled partitions stay inside S. -/
def EofCount (S : Finset Nat) (st : ConsumerState) : Prop :=
  st.part_eof_cnt = (S.filter (fun i => st.part_eof i = true)).card

theorem consume_cb_eofCount (c : Conf) (thres : Nat) (wr : WriteOutcome)
    (st : ConsumerState) (m : KMessage) (S : Finset Nat)
    (hm : m.partition ∈ S) (h : EofCount S st) :
    EofCount S (consume_cb c thres wr st m) := by
  unfold EofCount at h ⊢
  have hfilter : S.filter (fun i => (if i = m.partition then true else st.part_eof i) = true)
      = insert m.partition (S.filter (fun i => st.part_eof i = true)) := by
    ext x
    simp only [Finset.mem_filter, Finset.mem_insert]
    by_cases hx : x = m.partition
    · subst hx
      simp [hm]
    · simp [hx]
  simp only [consume_cb]
  split_ifs with h1 h2 h3 h4 h5 <;> try exact h
  all_goals rw [hfilter, Finset.card_insert_of_not_mem (by simp [h5]), h]

theorem runTrace_eofCount (c : Conf) (thres : Nat) (S : Finset Nat) :
    ∀ (msgs : List (KMessage × WriteOutcome)) (st : ConsumerState),
      (∀ mw ∈ msgs, mw.1.partition ∈ S) → EofCount S st →
      EofCount S (runTrace c thres st msgs) := by
  intro msgs
  induction msgs with
  | nil => intro st _ h; exact h
  | cons mw rest ih =>
    intro st hall h
    rw [runTrace_cons]
    exact ih _ (fun x hx => hall x (List.mem_cons_of_mem mw hx))
      (consume_cb_eofCount c thres mw.2 st mw.1 S (hall mw (List.mem_cons_self mw rest)) h)

/-- C2: over any delivered record sequence whose partitions lie in the
selected scope S, each per-partition EOF flag only ever goes from false
to true (monotone across prefixes, hence flips at most once and is
never reset), and the EOF count never exceeds the cardinality of S. -/
theorem part_eof_monotone_and_bounded (c : Conf) (thres : Nat) (S : Finset Nat)
    (msgs : List (KMessage × WriteOutcome))
    (hall : ∀ mw ∈ msgs, mw.1.partition ∈ S) :
    (∀ p k k', k ≤ k' →
      (runTrace c thres initState (msgs.take k)).part_eof p = true →
      (runTrace c thres initState (msgs.take k')).part_eof p = true)
    ∧ (runTrace c thres initState msgs).part_eof_cnt ≤ S.card := by
  constructor
  · intro p k k' hkk h
    have hsplit : msgs.take k' = msgs.take k ++ (msgs.drop k).take (k' - k) := by
      rw [← List.take_add]
      congr 1
      omega
    rw [hsplit, runTrace_append]
    exact runTrace_part_eof_mono c thres _ _ p h
  · have h0 : EofCount S initState := by
      unfold EofCount
      simp [initState]
    have hfin := runTrace_eofCount c thres S msgs initState hall h0
    unfold EofCount at hfin
    rw [hfin]
    exact Finset.card_filter_le S _

/-- C2 witness: one EOF signal inside the two-partition scope keeps the
count at or below the scope cardinality. -/
theorem part_eof_monotone_and_bounded_witness :
    (∀ mw ∈ [(eofMsg 0, okWrite)], mw.1.partition ∈ ({0, 1} : Finset Nat)) ∧
      (runTrace confA 2 initState [(eofMsg 0, okWrite)]).part_eof_cnt ≤
        ({0, 1} : Finset Nat).card :=
  ⟨by decide,
    (part_eof_monotone_and_bounded confA 2 ({0, 1} : Finset Nat)
      [(eofMsg 0, okWrite)] (by decide)).2⟩

theorem runTrace_take_succ (c : Conf) (thres : Nat) (st : ConsumerState)
    (msgs : List (KMessage × WriteOutcome)) (k : Nat) (hk : k < msgs.length) :
    runTrace c thres st (msgs.take (k + 1)) =
      consume_cb c thres msgs[k].2 (runTrace c thres st (msgs.take k)) msgs[k].1 := by
  rw [List.take_succ, runTrace_append, List.getElem?_eq_getElem hk]
  rfl

/-- C3: with a positive limit N and a stream of successfully written
data records, after any prefix of k records exactly min k N records
have been counted and emitted — the output is precisely the
concatenation of the first min k N formatted records — and the run
flag drops for the first time exactly when the k-th record makes
Stats.rx reach N, never before. -/
theorem msg_cnt_limit_emits_exactly (c : Conf) (thres : Nat) (N : Nat)
    (msgs : List (KMessage × WriteOutcome))
    (hN : 0 < N) (hcnt : c.msg_cnt = (N : Int))
    (hall : ∀ mw ∈ msgs, mw.1.err = 0 ∧ mw.2 = okWrite) :
    ∀ k : Nat, k ≤ msgs.length →
      (runTrace c thres initState (msgs.take k)).rx = min k N
      ∧ ((runTrace c thres initState (msgs.take k)).run = true ↔ k < N)
      ∧ (runTrace c thres initState (msgs.take k)).out =
          ((msgs.take (min k N)).map (fun mw => formatBytes c mw.1)).flatten := by
  intro k
  induction k with
  | zero =>
    intro _
    refine ⟨by simp [runTrace, initState], ?_, by simp [runTrace, initState]⟩
    simp only [List.take_zero]
    constructor
    · intro _
      exact hN
    · intro _
      rfl
  | succ k ih =>
    intro hk1
    have hk : k < msgs.length := by omega
    have ihh := ih (by omega)
    rw [runTrace_take_succ c thres initState msgs k hk]
    have hmem : msgs[k] ∈ msgs := List.getElem_mem hk
    have herr : msgs[k].1.err = 0 := (hall msgs[k] hmem).1
    have hwr : msgs[k].2 = okWrite := (hall msgs[k] hmem).2
    by_cases hlt : k < N
    · have hrun : (runTrace c thres initState (msgs.take k)).run = true := ihh.2.1.mpr hlt
      have hp : msgs[k].2.payloadRet = 1 := by rw [hwr]; rfl
      have hd : msgs[k].2.delimRet = 1 := by rw [hwr]; rfl
      rw [consume_cb_data_success c thres msgs[k].2 _ msgs[k].1 hrun herr hp hd]
      dsimp only
      have hrx : (runTrace c thres initState (msgs.take k)).rx = k := by
        rw [ihh.1, Nat.min_eq_left (by omega)]
      refine ⟨?_, ?_, ?_⟩
      · rw [hrx, Nat.min_eq_left (by omega)]
      · rw [hrx, hcnt]
        split_ifs with heq
        · have hEq : k + 1 = N := by exact_mod_cast heq
          simp only [Bool.false_eq_true, false_iff]
          omega
        · have hne : k + 1 ≠ N := by
            intro hh
            exact heq (by exact_mod_cast hh)
          rw [hrun]
          constructor
          · intro _
            omega
          · intro _
            rfl
      · rw [ihh.2.2, Nat.min_eq_left (by omega), Nat.min_eq_left (by omega),
          List.take_succ, List.getElem?_eq_getElem hk, Option.toList_some,
          List.map_append, List.flatten_append]
        simp
    · have hrun : (runTrace c thres initState (msgs.take k)).run = false := by
        cases hr : (runTrace c thres initState (msgs.take k)).run
        · rfl
        · exact absurd (ihh.2.1.mp hr) hlt
      rw [consume_cb_not_run c thres msgs[k].2 _ msgs[k].1 hrun]
      have hmin : min (k + 1) N = min k N := by omega
      refine ⟨?_, ?_, ?_⟩
      · rw [ihh.1]
        omega
      · rw [hrun]
        simp only [Bool.false_eq_true, false_iff]
        omega
      · rw [ihh.2.2, hmin]

/-- C3 witness: limit 2 over a three-record data stream emits exactly
the first two formatted records and then stops. -/
theorem msg_cnt_limit_emits_exactly_witness :
    (0 : Nat) < 2 ∧ confC.msg_cnt = ((2 : Nat) : Int) ∧
      (runTrace confC 0 initState (msgs3.take 3)).rx = min 3 2 ∧
      ((runTrace confC 0 initState (msgs3.take 3)).run = true ↔ 3 < 2) ∧
      (runTrace confC 0 initState (msgs3.take 3)).out =
        ((msgs3.take (min 3 2)).map (fun mw => formatBytes confC mw.1)).flatten :=
  ⟨by decide, by decide,
    (msg_cnt_limit_emits_exactly confC 0 2 msgs3 (by decide) (by decide) (by decide)
      3 (by decide)).1,
    (msg_cnt_limit_emits_exactly confC 0 2 msgs3 (by decide) (by decide) (by decide)
      3 (by decide)).2.1,
    (msg_cnt_limit_emits_exactly confC 0 2 msgs3 (by decide) (by decide) (by decide)
      3 (by decide)).2.2⟩

theorem stopLoop_not_mem (requested : Int) (ps : List Int)
    (hreq : requested ≠ PARTITION_UA) (h : requested ∉ ps) :
    stopLoop requested ps = [] := by
  induction ps with
  | nil => rfl
  | cons p rest ih =>
    have hp : requested ≠ p := by
      intro hh
      exact h (by rw [hh]; exact List.mem_cons_self p rest)
    unfold stopLoop
    rw [if_pos ⟨hreq, hp⟩]
    exact ih (fun hh => h (List.mem_cons_of_mem p hh))

theorem stopLoop_eq_startLoop_fst (requested off : Int) (ps : List Int)
    (hnd : ps.Nodup) :
    stopLoop requested ps = ((startLoop requested off ps).1).map Prod.fst := by
  induction ps with
  | nil => rfl
  | cons p rest ih =>
    have hpn : p ∉ rest := (List.nodup_cons.mp hnd).1
    have hnd1 : rest.Nodup := (List.nodup_cons.mp hnd).2
    by_cases hu : requested ≠ PARTITION_UA
    · by_cases hp : requested = p
      · have hc : ¬ (requested ≠ PARTITION_UA ∧ requested ≠ p) := fun hcc => hcc.2 hp
        unfold stopLoop startLoop
        simp only [if_neg hc, if_pos hu]
        rw [stopLoop_not_mem requested rest hu (by rw [hp]; exact hpn)]
        rfl
      · have hc : requested ≠ PARTITION_UA ∧ requested ≠ p := ⟨hu, hp⟩
        unfold stopLoop startLoop
        simp only [if_pos hc]
        exact ih hnd1
    · push_neg at hu
      have hc : ¬ (requested ≠ PARTITION_UA ∧ requested ≠ p) := fun hcc => hcc.1 hu
      unfold stopLoop startLoop
      simp only [if_neg hc, if_neg (fun hh : requested ≠ PARTITION_UA => hh hu)]
      simp only [List.map_cons]
      rw [ih hnd1]

theorem consume_cb_exitcode_one (c : Conf) (thres : Nat) (wr : WriteOutcome)
    (st : ConsumerState) (m : KMessage) (h : st.exitcode = 1) :
    (consume_cb c thres wr st m).exitcode = 1 := by
  simp only [consume_cb]
  split_ifs <;> first | exact h | rfl

theorem runTrace_exitcode_one (c : Conf) (thres : Nat) :
    ∀ (msgs : List (KMessage × WriteOutcome)) (st : ConsumerState),
      st.exitcode = 1 → (runTrace c thres st msgs).exitcode = 1 := by
  intro msgs
  induction msgs with
  | nil => intro st h; exact h
  | cons mw rest ih =>
    intro st h
    rw [runTrace_cons]
    exact ih _ (consume_cb_exitcode_one c thres mw.2 st mw.1 h)

theorem consume_cb_fatal (c : Conf) (thres : Nat) (wr : WriteOutcome)
    (st : ConsumerState) (m : KMessage)
    (hrun : st.run = true) (hf : fatalTrigger m wr) :
    (consume_cb c thres wr st m).exitcode = 1 := by
  simp only [consume_cb]
  rcases hf with ⟨hne, hneof⟩ | ⟨herr, hw⟩
  · rw [if_neg (by rw [hrun]; simp), if_pos hne, if_neg hneof]
  · rw [if_neg (by rw [hrun]; simp), if_neg (by simp [herr])]
    rcases eq_or_ne wr.payloadRet 1 with hp | hp
    · have hd : wr.delimRet ≠ 1 := by
        rcases hw with h1 | h1
        · exact absurd hp h1
        · exact h1
      rw [if_neg (by simp [hp]), if_pos hd]
    · rw [if_pos hp]

theorem preflight_ok_inv (requested off : Int) (md : Metadata) (t : TopicMeta)
    (opened : List (Int × Int))
    (h : preflight requested off md = Except.ok (t, opened)) :
    (∃ rest, md.topics = t :: rest) ∧
      opened = (startLoop requested off t.partitions).1 := by
  cases hmd : md.topics with
  | nil =>
    have hpre : preflight requested off md = Except.error MetaError.TopicNotFound := by
      unfold preflight
      rw [hmd]
    rw [hpre] at h
    exact absurd h (by simp)
  | cons t0 rest =>
    have hpre : preflight requested off md =
        (if t0.err ≠ 0 then Except.error (MetaError.TopicError t0.err)
         else if t0.partitions.length = 0 then Except.error MetaError.NoPartitions
         else if requested ≠ PARTITION_UA ∧ (startLoop requested off t0.partitions).2 = true then
           Except.error (MetaError.PartitionNotFound 0 ((t0.partitions.length : Int) - 1))
         else Except.ok (t0, (startLoop requested off t0.partitions).1)) := by
      unfold preflight
      rw [hmd]
    rw [hpre] at h
    split_ifs at h
    all_goals simp only [Except.ok.injEq, Prod.mk.injEq] at h
    all_goals obtain ⟨ht, ho⟩ := h
    all_goals subst ht
    all_goals exact ⟨⟨rest, rfl⟩, ho.symm⟩

theorem consumer_main_model_error (c : Conf) (md : Metadata)
    (msgs : List (KMessage × WriteOutcome)) (e : MetaError)
    (hpre : preflight c.partition c.offset md = Except.error e) :
    consumer_main_model c md msgs = { opened := [], closed := [], exitcode := 1 } := by
  unfold consumer_main_model
  rw [hpre]

theorem consumer_main_model_ok (c : Conf) (md : Metadata)
    (msgs : List (KMessage × WriteOutcome)) (t : TopicMeta) (opened : List (Int × Int))
    (hpre : preflight c.partition c.offset md = Except.ok (t, opened)) :
    consumer_main_model c md msgs =
      { opened := opened,
        closed := stopLoop c.partition t.partitions,
        exitcode := (runTrace c (mainThres c t) initState msgs).exitcode } := by
  unfold consumer_main_model
  rw [hpre]

/-- C7: termination always closes exactly the opened partition streams
— over distinct partition ids, the stop loop closes precisely the
streams the start loop opened, on fatal paths as well as normal ones —
and every fatal condition (metadata pre-flight failure, non-EOF stream
error, checked write failure) makes the run exit with code 1. -/
theorem fatal_closes_opened_streams (c : Conf) (md : Metadata)
    (msgs : List (KMessage × WriteOutcome))
    (hnd : ∀ t ∈ md.topics, t.partitions.Nodup) :
    ((consumer_main_model c md msgs).closed =
      ((consumer_main_model c md msgs).opened).map Prod.fst)
    ∧ (∀ e, preflight c.partition c.offset md = Except.error e →
        (consumer_main_model c md msgs).exitcode = 1)
    ∧ (∀ t opened, preflight c.partition c.offset md = Except.ok (t, opened) →
        ∀ pre mw post, msgs = pre ++ mw :: post →
          (runTrace c (mainThres c t) initState pre).run = true →
          fatalTrigger mw.1 mw.2 →
          (consumer_main_model c md msgs).exitcode = 1) := by
  refine ⟨?_, ?_, ?_⟩
  · cases hpre : preflight c.partition c.offset md with
    | error e =>
      rw [consumer_main_model_error c md msgs e hpre]
      rfl
    | ok tpl =>
      obtain ⟨t, opened⟩ := tpl
      obtain ⟨⟨rest, hmd⟩, ho⟩ := preflight_ok_inv c.partition c.offset md t opened hpre
      rw [consumer_main_model_ok c md msgs t opened hpre]
      dsimp only
      rw [ho]
      exact stopLoop_eq_startLoop_fst c.partition c.offset t.partitions
        (hnd t (by rw [hmd]; exact List.mem_cons_self t rest))
  · intro e hpre
    rw [consumer_main_model_error c md msgs e hpre]
  · intro t opened hpre pre mw post hsplit hrun hf
    rw [consumer_main_model_ok c md msgs t opened hpre]
    dsimp only
    rw [hsplit, runTrace_append, runTrace_cons]
    exact runTrace_exitcode_one c (mainThres c t) post _
      (consume_cb_fatal c (mainThres c t) mw.2 _ mw.1 hrun hf)

/-- C7 witness: a run over a one-partition topic hit by a fatal stream
error exits 1 and closes exactly the stream it opened. -/
theorem fatal_closes_opened_streams_witness :
    (consumer_main_model confC mdOne msgsF).closed =
      ((consumer_main_model confC mdOne msgsF).opened).map Prod.fst ∧
      (consumer_main_model confC mdOne msgsF).exitcode = 1 :=
  ⟨(fatal_closes_opened_streams confC mdOne msgsF (by decide)).1,
    (fatal_closes_opened_streams confC mdOne msgsF (by decide)).2.2
      { err := 0, partitions := [0] } [(0, OFFSET_BEGINNING)] rfl
      [] (errMsg, okWrite) [] rfl rfl (Or.inl ⟨by decide, by decide⟩)⟩

/-- C8 witness: requesting partition 5 of a healthy three-partition
topic fails with PartitionNotFound over the range 0 to 2. -/
theorem metadata_resolution_cases_witness :
    (5 : Int) ∉ mdTopic.partitions ∧
      preflight 5 OFFSET_BEGINNING mdThree =
        Except.error (MetaError.PartitionNotFound 0 ((mdTopic.partitions.length : Int) - 1)) ∧
      ((mdTopic.partitions.length : Int) - 1) = 2 :=
  ⟨by decide,
    ((metadata_resolution_cases 5 OFFSET_BEGINNING mdThree).2 mdTopic [] rfl).2.2.1
      rfl (by decide) (by decide) (by decide),
    by decide⟩

end Kfc
